import Mathlib

/-!
# Maidenhead grid locator (`grid/grid.c`)

A shallow embedding of `main` from `grid/grid.c` and the properties of the
six-character locator it prints.

Modelling conventions.

* `float` values are exact rationals (`ℚ`): rounding and overflow of `float`
  are not represented.  A text that `atof` converts to an infinity or a NaN has
  the value `none`.  The definitions named `...F32` are the exception: they
  are the same computations with the result of every `float` operation rounded
  to IEEE-754 binary32 (`roundF32`), each operation evaluated in `float` as
  with `FLT_EVAL_METHOD` 0.
* `int` values are mathematical integers together with a range check
  (`checkInt`): a conversion or an operation whose result leaves
  `INT_MIN..INT_MAX` has no value defined by the C language, and the characters
  that depend on it are `none`.
* `char` is the signed 8-bit type of the x86-64 ABI; storing an `int` keeps it
  modulo 256 (`toSChar`).  `printf("%c")` writes the byte `value mod 256`, here
  the character with that code; `printf("%d")` writes the decimal numeral.
* The argument vector is the program name `argv[0]` and the list of the
  positional arguments `argv[1..]`, so that `argc = 1 + args.length`.
-/

namespace Grid

/-! ## Constants -/

/-- The macro `ASCII_UPPER`. -/
def ASCII_UPPER : Int := 65

/-- The macro `ASCII_LOWER`. -/
def ASCII_LOWER : Int := 97

/-- Least value of `int` (32 bits). -/
def INT_MIN : Int := -2147483648

/-- Greatest value of `int` (32 bits). -/
def INT_MAX : Int := 2147483647

/-! ## C arithmetic -/

/-- The library function `truncf`: rounding toward zero.  The result is an
integer-valued `float`; it is kept as an `Int` and coerced back where the code
goes on computing with it as a `float`. -/
def truncf (x : ℚ) : Int := if 0 ≤ x then ⌊x⌋ else ⌈x⌉

/-- An `int` result: defined when it lies in `INT_MIN..INT_MAX`.  Used for the
conversion `(int) x` of an integer-valued `float` and for `int` arithmetic. -/
def checkInt (z : Int) : Option Int :=
  if INT_MIN ≤ z ∧ z ≤ INT_MAX then some z else none

/-- Storing an `int` into a `char` variable: the value modulo 256 in
`-128..127`. -/
def toSChar (z : Int) : Int := (z + 128) % 256 - 128

/-- The longitude block of `main` (lines 41-57): from `longitude` the values of
the `char` variables `g1`, `g3`, `g5`. -/
def lonChars (longitude : ℚ) : Option (Int × Int × Int) := do
  let f_lon : ℚ := 180 + longitude
  let i ← checkInt (truncf (f_lon / 20))
  let g1 := toSChar (← checkInt (ASCII_UPPER + i))
  let f1 : ℚ := f_lon - ((← checkInt (i * 20)) : Int)
  let f2 : Int := truncf (f1 / 2)
  let g3 := toSChar (← checkInt f2)
  let g5 := toSChar (← checkInt (ASCII_LOWER + (← checkInt (truncf ((f1 / 2 - f2) * 24)))))
  pure (g1, g3, g5)

/-- The latitude block of `main` (lines 61-77): from `latitude` the values of
the `char` variables `g2`, `g4`, `g6`. -/
def latChars (latitude : ℚ) : Option (Int × Int × Int) := do
  let f_lat : ℚ := 90 + latitude
  let i ← checkInt (truncf (f_lat / 10))
  let g2 := toSChar (← checkInt (ASCII_UPPER + i))
  let f1 : ℚ := f_lat - ((← checkInt (i * 10)) : Int)
  let f2 : Int := truncf f1
  let g4 := toSChar (← checkInt f2)
  let g6 := toSChar (← checkInt (ASCII_LOWER + (← checkInt (truncf ((f1 - f2) * 24)))))
  pure (g2, g4, g6)

/-- The local variables of one block of `main` once it has run: the field
index `i`, the remainder `f1`, the square `f2` and the subsquare index
`(int) truncf(...)` that is added to `ASCII_LOWER`. -/
structure BlockVars where
  i : Int
  f1 : ℚ
  f2 : Int
  sub : Int
  deriving DecidableEq

/-- The local variables of the longitude block of `main` (lines 41-57). -/
def lonVars (longitude : ℚ) : Option BlockVars := do
  let f_lon : ℚ := 180 + longitude
  let i ← checkInt (truncf (f_lon / 20))
  let f1 : ℚ := f_lon - ((← checkInt (i * 20)) : Int)
  let f2 : Int := truncf (f1 / 2)
  let sub ← checkInt (truncf ((f1 / 2 - f2) * 24))
  pure { i := i, f1 := f1, f2 := f2, sub := sub }

/-- The local variables of the latitude block of `main` (lines 61-77). -/
def latVars (latitude : ℚ) : Option BlockVars := do
  let f_lat : ℚ := 90 + latitude
  let i ← checkInt (truncf (f_lat / 10))
  let f1 : ℚ := f_lat - ((← checkInt (i * 10)) : Int)
  let f2 : Int := truncf f1
  let sub ← checkInt (truncf ((f1 - f2) * 24))
  pure { i := i, f1 := f1, f2 := f2, sub := sub }

/-- The `char` variables of a block from its local variables: the field letter
`ASCII_UPPER + i`, the square `(int) f2` and the subsquare letter
`ASCII_LOWER + sub`. -/
def BlockVars.chars (v : BlockVars) : Option (Int × Int × Int) := do
  let a ← checkInt (ASCII_UPPER + v.i)
  let b ← checkInt v.f2
  let c ← checkInt (ASCII_LOWER + v.sub)
  pure (toSChar a, toSChar b, toSChar c)

/-! ## Single precision -/

/-- Rounding to the nearest integer, a tie going to the even one. -/
def roundHalfEven (q : ℚ) : Int :=
  if q - ⌊q⌋ < 1 / 2 then ⌊q⌋
  else if 1 / 2 < q - ⌊q⌋ then ⌊q⌋ + 1
  else if ⌊q⌋ % 2 = 0 then ⌊q⌋ else ⌊q⌋ + 1

/-- Exponent of the unit in the last place of the IEEE-754 binary32 format at
`x`: 24 significant bits, and the exponent of the binade at least -126. -/
def ulpExp (x : ℚ) : Int := max (Int.log 2 |x|) (-126) - 23

/-- Rounding of an exact value to the `float` format (IEEE-754 binary32, round
to nearest, ties to even); `none` when the result is an infinity. -/
def roundF32 (x : ℚ) : Option ℚ :=
  let r : ℚ := roundHalfEven (x / 2 ^ ulpExp x) * 2 ^ ulpExp x
  if |r| < 2 ^ 128 then some r else none

/-- Lines 41-45 of `main` in single precision: the sum `180 + longitude` and
the quotient `f_lon / 20` are rounded to `float`; the result is the value of
the `char` variable `g1`. -/
def lonFieldF32 (longitude : ℚ) : Option Int := do
  let f_lon ← roundF32 (180 + longitude)
  let q ← roundF32 (f_lon / 20)
  let i ← checkInt (truncf q)
  let g1 := toSChar (← checkInt (ASCII_UPPER + i))
  pure g1

/-- Lines 61-65 of `main` in single precision: the sum `90 + latitude` and the
quotient `f_lat / 10` are rounded to `float`; the result is the value of the
`char` variable `g2`. -/
def latFieldF32 (latitude : ℚ) : Option Int := do
  let f_lat ← roundF32 (90 + latitude)
  let q ← roundF32 (f_lat / 10)
  let i ← checkInt (truncf q)
  let g2 := toSChar (← checkInt (ASCII_UPPER + i))
  pure g2

/-- The longitude block of `main` (lines 41-57) in single precision: the
result of every `float` operation is rounded to binary32, and the `int` product
`i * 20` is converted to `float` before the subtraction.  The quotient `f1 / 2`
of lines 51 and 57 is `h`. -/
def lonCharsF32 (longitude : ℚ) : Option (Int × Int × Int) := do
  let f_lon ← roundF32 (180 + longitude)
  let i ← checkInt (truncf (← roundF32 (f_lon / 20)))
  let g1 := toSChar (← checkInt (ASCII_UPPER + i))
  let f1 ← roundF32 (f_lon - (← roundF32 ((← checkInt (i * 20)) : Int)))
  let h ← roundF32 (f1 / 2)
  let f2 : Int := truncf h
  let g3 := toSChar (← checkInt f2)
  let d ← roundF32 (h - f2)
  let g5 := toSChar (← checkInt (ASCII_LOWER + (← checkInt (truncf (← roundF32 (d * 24))))))
  pure (g1, g3, g5)

/-- The latitude block of `main` (lines 61-77) in single precision: the result
of every `float` operation is rounded to binary32, and the `int` product
`i * 10` is converted to `float` before the subtraction. -/
def latCharsF32 (latitude : ℚ) : Option (Int × Int × Int) := do
  let f_lat ← roundF32 (90 + latitude)
  let i ← checkInt (truncf (← roundF32 (f_lat / 10)))
  let g2 := toSChar (← checkInt (ASCII_UPPER + i))
  let f1 ← roundF32 (f_lat - (← roundF32 ((← checkInt (i * 10)) : Int)))
  let f2 : Int := truncf f1
  let g4 := toSChar (← checkInt f2)
  let d ← roundF32 (f1 - f2)
  let g6 := toSChar (← checkInt (ASCII_LOWER + (← checkInt (truncf (← roundF32 (d * 24))))))
  pure (g2, g4, g6)

/-! ## Output -/

/-- The conversion `%c`: the argument is converted to `unsigned char` and that
byte is written. -/
def fmtC (g : Int) : List Char := [Char.ofNat (g % 256).toNat]

/-- The conversion `%d`: the decimal numeral, with a minus sign when negative. -/
def fmtD (g : Int) : List Char :=
  if g < 0 then '-' :: Nat.toDigits 10 g.natAbs else Nat.toDigits 10 g.natAbs

/-- The call `printf("%c%c%d%d%c%c\n", g1, g2, g3, g4, g5, g6)`. -/
def printLocator (g1 g2 g3 g4 g5 g6 : Int) : String :=
  String.mk (fmtC g1 ++ fmtC g2 ++ fmtD g3 ++ fmtD g4 ++ fmtC g5 ++ fmtC g6 ++ ['\n'])

/-- The computation of `main` from line 39 on: the text written to standard
output for the values of `longitude` and `latitude`. -/
def encode (longitude latitude : ℚ) : Option String := do
  let (g1, g3, g5) ← lonChars longitude
  let (g2, g4, g6) ← latChars latitude
  pure (printLocator g1 g2 g3 g4 g5 g6)

/-- The computation of `main` from line 39 on in single precision: the text
written to standard output for the values that the `float` variables
`longitude` and `latitude` hold. -/
def encodeF32 (longitude latitude : ℚ) : Option String := do
  let (g1, g3, g5) ← lonCharsF32 longitude
  let (g2, g4, g6) ← latCharsF32 latitude
  pure (printLocator g1 g2 g3 g4 g5 g6)

/-! ## The library function `atof` -/

/-- The library predicate `isspace` in the "C" locale. -/
def isspace (c : Char) : Bool :=
  c == ' ' || c == '\t' || c == '\n' || c == '\x0b' || c == '\x0c' || c == '\r'

/-- Value of a decimal digit. -/
def decVal (c : Char) : Option Nat :=
  if '0' ≤ c ∧ c ≤ '9' then some (c.toNat - 48) else none

/-- Value of a hexadecimal digit. -/
def hexVal (c : Char) : Option Nat :=
  if '0' ≤ c ∧ c ≤ '9' then some (c.toNat - 48)
  else if 'a' ≤ c ∧ c ≤ 'f' then some (c.toNat - 87)
  else if 'A' ≤ c ∧ c ≤ 'F' then some (c.toNat - 55)
  else none

/-- Reads the longest run of digits of the given base: the accumulated value,
the number of digits read and the rest of the text. -/
def readDigits (val : Char → Option Nat) (base : Nat) :
    List Char → Nat → Nat → Nat × Nat × List Char
  | [], acc, n => (acc, n, [])
  | c :: cs, acc, n =>
    match val c with
    | some d => readDigits val base cs (acc * base + d) (n + 1)
    | none => (acc, n, c :: cs)

/-- Reads an optional sign: whether it is a minus, and the rest of the text. -/
def readSign : List Char → Bool × List Char
  | '-' :: r => (true, r)
  | '+' :: r => (false, r)
  | s => (false, s)

/-- Reads an optional exponent part introduced by one of the two given letters:
a letter, an optional sign and at least one decimal digit.  Without a digit
there is no exponent part and the exponent is zero. -/
def readExponent (lo up : Char) : List Char → Int
  | [] => 0
  | c :: r =>
    if c == lo || c == up then
      let (neg, r1) := readSign r
      let (e, n, _) := readDigits decVal 10 r1 0 0
      if n = 0 then 0 else if neg then -(e : Int) else (e : Int)
    else 0

/-- Reads a digit sequence that may hold one radix point: the value of all the
digits read as one numeral, the number of digits in all, the number of digits
behind the point, and the rest of the text. -/
def readMantissa (val : Char → Option Nat) (base : Nat) (s : List Char) :
    Nat × Nat × Nat × List Char :=
  let (m1, n1, r1) := readDigits val base s 0 0
  match r1 with
  | '.' :: r2 =>
    let (m2, n2, r3) := readDigits val base r2 m1 0
    (m2, n1 + n2, n2, r3)
  | _ => (m1, n1, 0, r1)

/-- What `strtod` recognises at the start of a text. -/
inductive Scanned where
  /-- No conversion can be performed: the value is zero. -/
  | noconv
  /-- An infinity or a NaN. -/
  | nonfinite
  /-- A number: sign, digits read as one numeral `m`, the base of the numeral
  and the number `frac` of digits behind the radix point, the base of the
  exponent and the exponent. -/
  | num (neg : Bool) (m : Nat) (base : Nat) (frac : Nat) (expBase : Nat) (exp : Int)
  deriving DecidableEq

/-- Whether the text starts with the given lower-case word, ignoring case. -/
def startsWithCI (word : List Char) (s : List Char) : Bool :=
  (s.take word.length).map Char.toLower == word

/-- The subject sequence of `strtod`: white space, an optional sign, and then
an infinity, a NaN, a hexadecimal or a decimal floating constant. -/
def scan (text : List Char) : Scanned :=
  let (neg, s) := readSign (text.dropWhile isspace)
  if startsWithCI ['i', 'n', 'f'] s || startsWithCI ['n', 'a', 'n'] s then .nonfinite
  else
    let hex : Option Scanned :=
      match s with
      | '0' :: x :: r =>
        if x == 'x' || x == 'X' then
          let (m, n, frac, r1) := readMantissa hexVal 16 r
          if n = 0 then none else some (.num neg m 16 frac 2 (readExponent 'p' 'P' r1))
        else none
      | _ => none
    match hex with
    | some v => v
    | none =>
      let (m, n, frac, r1) := readMantissa decVal 10 s
      if n = 0 then .noconv else .num neg m 10 frac 10 (readExponent 'e' 'E' r1)

/-- The power `b ^ e` for an integer exponent. -/
def scale (b : Nat) (e : Int) : ℚ :=
  if 0 ≤ e then (b : ℚ) ^ e.toNat else 1 / (b : ℚ) ^ (-e).toNat

/-- The value of what was scanned; `none` is a value that is not a finite
number. -/
def Scanned.value : Scanned → Option ℚ
  | .noconv => some 0
  | .nonfinite => none
  | .num neg m base frac expBase exp =>
    let v : ℚ := (m : ℚ) / (base : ℚ) ^ frac * scale expBase exp
    some (if neg then -v else v)

/-- The library function `atof`, that is `strtod(nptr, NULL)`. -/
def atof (nptr : String) : Option ℚ := (scan nptr.data).value

/-! ## The program -/

/-- The process-wide variables `longitude` and `latitude`. -/
structure Globals where
  longitude : Option ℚ
  latitude : Option ℚ
  deriving DecidableEq

/-- The initial values of the process-wide variables. -/
def Globals.init : Globals := { longitude := some 0, latitude := some 0 }

/-- What a run of the program leaves behind.  `stdout = none`: the text written
is not determined by the C language (a conversion to `int` or an `int`
operation out of range, or a coordinate that is not a finite number). -/
structure Outcome where
  stdout : Option String
  stderr : String
  status : Nat
  globals : Globals
  deriving DecidableEq

/-- The function `main`, for the argument vector `argv0 :: args`
(`argc = 1 + args.length`) and the process-wide variables `st`. -/
def main (st : Globals) (argv0 : String) (args : List String) : Outcome :=
  if h : 1 + args.length < 3 then
    { stdout := some "", stderr := "usage: " ++ argv0 ++ " LON LAT\n", status := 1,
      globals := st }
  else
    let st1 : Globals := { st with longitude := atof (args.get ⟨0, by omega⟩) }
    let st2 : Globals := { st1 with latitude := atof (args.get ⟨1, by omega⟩) }
    { stdout := do encode (← st2.longitude) (← st2.latitude),
      stderr := "", status := 0, globals := st2 }

/-! ## The algorithm in the words of the specification -/

namespace Spec

/-- Normalised longitude: `lon360 = longitude + 180`. -/
def lon360 (longitude : ℚ) : ℚ := longitude + 180

/-- Normalised latitude: `lat180 = latitude + 90`. -/
def lat180 (latitude : ℚ) : ℚ := latitude + 90

/-- Field index of the longitude: `floor(lon360 / 20)`. -/
def fieldLonIndex (longitude : ℚ) : Int := ⌊lon360 longitude / 20⌋

/-- Field index of the latitude: `floor(lat180 / 10)`. -/
def fieldLatIndex (latitude : ℚ) : Int := ⌊lat180 latitude / 10⌋

/-- Remainder of the longitude: `remLon = lon360 - fieldLonIndex*20`. -/
def remLon (longitude : ℚ) : ℚ := lon360 longitude - fieldLonIndex longitude * 20

/-- Remainder of the latitude: `remLat = lat180 - fieldLatIndex*10`. -/
def remLat (latitude : ℚ) : ℚ := lat180 latitude - fieldLatIndex latitude * 10

/-- Square of the longitude: `floor(remLon / 2)`. -/
def squareLon (longitude : ℚ) : Int := ⌊remLon longitude / 2⌋

/-- Square of the latitude: `floor(remLat)`. -/
def squareLat (latitude : ℚ) : Int := ⌊remLat latitude⌋

/-- Subsquare of the longitude: `floor((remLon/2 - squareLon) * 24)`. -/
def subLon (longitude : ℚ) : Int := ⌊(remLon longitude / 2 - squareLon longitude) * 24⌋

/-- Subsquare of the latitude: `floor((remLat - squareLat) * 24)`. -/
def subLat (latitude : ℚ) : Int := ⌊(remLat latitude - squareLat latitude) * 24⌋

/-- The character `base + idx`. -/
def letter (base : Char) (idx : Int) : Char := Char.ofNat (base.toNat + idx.toNat)

/-- The decimal digit of a value in `0..9`. -/
def digit (d : Int) : Char := Char.ofNat ('0'.toNat + d.toNat)

/-- The six characters in the interleaved order
`[fieldLon][fieldLat][squareLon][squareLat][subLon][subLat]`. -/
def locator (longitude latitude : ℚ) : List Char :=
  [letter 'A' (fieldLonIndex longitude), letter 'A' (fieldLatIndex latitude),
   digit (squareLon longitude), digit (squareLat latitude),
   letter 'a' (subLon longitude), letter 'a' (subLat latitude)]

end Spec

end Grid

/-! ## Auxiliary facts -/

namespace Grid

theorem truncf_of_nonneg {x : ℚ} (h : 0 ≤ x) : truncf x = ⌊x⌋ := by
  simp [truncf, h]

theorem checkInt_of_range {z : Int} (h0 : -2147483648 ≤ z) (h1 : z ≤ 2147483647) :
    checkInt z = some z := by
  simp [checkInt, INT_MIN, INT_MAX, h0, h1]

/-- What is left of `f` after removing the whole cells of width `w` lies in `[0, w)`. -/
theorem rem_bounds (f : ℚ) {w : ℚ} (hw : 0 < w) :
    0 ≤ f - ((⌊f / w⌋ : Int) : ℚ) * w ∧ f - ((⌊f / w⌋ : Int) : ℚ) * w < w := by
  have h1 := Int.floor_le (f / w)
  have h2 := Int.lt_floor_add_one (f / w)
  rw [le_div_iff₀ hw] at h1
  rw [div_lt_iff₀ hw] at h2
  constructor <;> linarith

theorem floor_range {x : ℚ} {n : Int} (h0 : 0 ≤ x) (h1 : x < n) :
    0 ≤ ⌊x⌋ ∧ ⌊x⌋ ≤ n - 1 := by
  constructor
  · exact Int.floor_nonneg.mpr h0
  · have : ⌊x⌋ < n := Int.floor_lt.mpr h1
    omega

theorem frac24_range (x : ℚ) :
    0 ≤ ⌊(x - (⌊x⌋ : Int)) * 24⌋ ∧ ⌊(x - (⌊x⌋ : Int)) * 24⌋ ≤ 23 := by
  have h1 := Int.floor_le x
  have h2 := Int.lt_floor_add_one x
  have := @floor_range ((x - (⌊x⌋ : Int)) * 24) 24 (by linarith) (by push_cast; linarith)
  simpa using this

theorem fmtC_upper (i : Int) (h0 : 0 ≤ i) (h1 : i ≤ 18) :
    fmtC (toSChar (ASCII_UPPER + i)) = [Spec.letter 'A' i] := by
  interval_cases i <;> rfl

theorem fmtC_lower (i : Int) (h0 : 0 ≤ i) (h1 : i ≤ 23) :
    fmtC (toSChar (ASCII_LOWER + i)) = [Spec.letter 'a' i] := by
  interval_cases i <;> rfl

theorem fmtD_digit (d : Int) (h0 : 0 ≤ d) (h1 : d ≤ 9) :
    fmtD (toSChar d) = [Spec.digit d] := by
  interval_cases d <;> rfl

namespace Spec

theorem fieldLonIndex_nonneg {lon : ℚ} (h : -180 ≤ lon) : 0 ≤ fieldLonIndex lon := by
  unfold fieldLonIndex lon360
  exact Int.floor_nonneg.mpr (by linarith)

theorem fieldLatIndex_nonneg {lat : ℚ} (h : -90 ≤ lat) : 0 ≤ fieldLatIndex lat := by
  unfold fieldLatIndex lat180
  exact Int.floor_nonneg.mpr (by linarith)

theorem fieldLonIndex_lt {lon : ℚ} {n : Int} (h : lon + 180 < 20 * n) :
    fieldLonIndex lon < n := by
  unfold fieldLonIndex lon360
  rw [Int.floor_lt]; linarith

theorem fieldLatIndex_lt {lat : ℚ} {n : Int} (h : lat + 90 < 10 * n) :
    fieldLatIndex lat < n := by
  unfold fieldLatIndex lat180
  rw [Int.floor_lt]; linarith

theorem fieldLonIndex_le {lon : ℚ} {n : Int} (h : lon + 180 ≤ 20 * n) :
    fieldLonIndex lon ≤ n := by
  unfold fieldLonIndex lon360
  have : ⌊(lon + 180) / 20⌋ ≤ ⌊(n : ℚ)⌋ := Int.floor_mono (by linarith)
  simpa using this

theorem fieldLatIndex_le {lat : ℚ} {n : Int} (h : lat + 90 ≤ 10 * n) :
    fieldLatIndex lat ≤ n := by
  unfold fieldLatIndex lat180
  have : ⌊(lat + 90) / 10⌋ ≤ ⌊(n : ℚ)⌋ := Int.floor_mono (by linarith)
  simpa using this

theorem remLon_range (lon : ℚ) : 0 ≤ remLon lon ∧ remLon lon < 20 := by
  unfold remLon fieldLonIndex
  exact rem_bounds (lon360 lon) (by norm_num)

theorem remLat_range (lat : ℚ) : 0 ≤ remLat lat ∧ remLat lat < 10 := by
  unfold remLat fieldLatIndex
  exact rem_bounds (lat180 lat) (by norm_num)

theorem squareLon_range (lon : ℚ) : 0 ≤ squareLon lon ∧ squareLon lon ≤ 9 := by
  have h := remLon_range lon
  unfold squareLon
  have := @floor_range (remLon lon / 2) 10 (by linarith) (by push_cast; linarith)
  simpa using this

theorem squareLat_range (lat : ℚ) : 0 ≤ squareLat lat ∧ squareLat lat ≤ 9 := by
  have h := remLat_range lat
  unfold squareLat
  have := @floor_range (remLat lat) 10 (by linarith) (by push_cast; linarith)
  simpa using this

theorem subLon_range (lon : ℚ) : 0 ≤ subLon lon ∧ subLon lon ≤ 23 := by
  unfold subLon squareLon
  exact frac24_range _

theorem subLat_range (lat : ℚ) : 0 ≤ subLat lat ∧ subLat lat ≤ 23 := by
  unfold subLat squareLat
  exact frac24_range _

end Spec

open Spec in
/-- The longitude block, for `0 ≤ 180 + longitude < 2147483660`: every `int`
value is in range and the three variables hold the indices of the specification. -/
theorem lonChars_eq (longitude : ℚ) (h0 : -180 ≤ longitude)
    (h1 : longitude < 2147483480) :
    lonChars longitude = some
      (toSChar (ASCII_UPPER + fieldLonIndex longitude),
       toSChar (squareLon longitude),
       toSChar (ASCII_LOWER + subLon longitude)) := by
  have hi := fieldLonIndex_nonneg h0
  have hi2 : fieldLonIndex longitude < 107374183 :=
    fieldLonIndex_lt (by push_cast; linarith)
  have hr := remLon_range longitude
  have hs := squareLon_range longitude
  have hb := subLon_range longitude
  have e1 : truncf ((180 + longitude) / 20) = fieldLonIndex longitude := by
    rw [truncf_of_nonneg (by linarith), add_comm]; rfl
  have e2 : (180 + longitude) - ((fieldLonIndex longitude * 20 : Int) : ℚ)
      = remLon longitude := by
    unfold remLon lon360; push_cast; ring
  have e3 : truncf (remLon longitude / 2) = squareLon longitude := by
    rw [truncf_of_nonneg (by linarith)]; rfl
  have e4 : truncf ((remLon longitude / 2 - (squareLon longitude : Int)) * 24)
      = subLon longitude := by
    rw [truncf_of_nonneg]
    · rfl
    · have := Int.floor_le (remLon longitude / 2)
      unfold squareLon; linarith
  simp only [lonChars, bind, Option.bind, pure, e1]
  rw [checkInt_of_range (by omega) (by omega)]
  simp only []
  rw [checkInt_of_range (by unfold ASCII_UPPER; omega) (by unfold ASCII_UPPER; omega)]
  simp only []
  rw [checkInt_of_range (by omega) (by omega)]
  simp only [e2, e3, e4]
  rw [checkInt_of_range (by omega) (by omega)]
  simp only []
  rw [checkInt_of_range (by omega) (by omega)]
  simp only []
  rw [checkInt_of_range (by unfold ASCII_LOWER; omega) (by unfold ASCII_LOWER; omega)]

open Spec in
/-- The latitude block, for `0 ≤ 90 + latitude < 2147483650`: every `int` value
is in range and the three variables hold the indices of the specification. -/
theorem latChars_eq (latitude : ℚ) (h0 : -90 ≤ latitude)
    (h1 : latitude < 2147483560) :
    latChars latitude = some
      (toSChar (ASCII_UPPER + fieldLatIndex latitude),
       toSChar (squareLat latitude),
       toSChar (ASCII_LOWER + subLat latitude)) := by
  have hi := fieldLatIndex_nonneg h0
  have hi2 : fieldLatIndex latitude < 214748365 :=
    fieldLatIndex_lt (by push_cast; linarith)
  have hr := remLat_range latitude
  have hs := squareLat_range latitude
  have hb := subLat_range latitude
  have e1 : truncf ((90 + latitude) / 10) = fieldLatIndex latitude := by
    rw [truncf_of_nonneg (by linarith), add_comm]; rfl
  have e2 : (90 + latitude) - ((fieldLatIndex latitude * 10 : Int) : ℚ)
      = remLat latitude := by
    unfold remLat lat180; push_cast; ring
  have e3 : truncf (remLat latitude) = squareLat latitude := by
    rw [truncf_of_nonneg (by linarith)]; rfl
  have e4 : truncf ((remLat latitude - (squareLat latitude : Int)) * 24)
      = subLat latitude := by
    rw [truncf_of_nonneg]
    · rfl
    · have := Int.floor_le (remLat latitude)
      unfold squareLat; linarith
  simp only [latChars, bind, Option.bind, pure, e1]
  rw [checkInt_of_range (by omega) (by omega)]
  simp only []
  rw [checkInt_of_range (by unfold ASCII_UPPER; omega) (by unfold ASCII_UPPER; omega)]
  simp only []
  rw [checkInt_of_range (by omega) (by omega)]
  simp only [e2, e3, e4]
  rw [checkInt_of_range (by omega) (by omega)]
  simp only []
  rw [checkInt_of_range (by omega) (by omega)]
  simp only []
  rw [checkInt_of_range (by unfold ASCII_LOWER; omega) (by unfold ASCII_LOWER; omega)]

open Spec in
/-- The text printed when neither normalised coordinate is negative and the
products `i * 20` and `i * 10` fit an `int`. -/
theorem encode_eq (longitude latitude : ℚ) (h0 : -180 ≤ longitude)
    (h1 : longitude < 2147483480) (h2 : -90 ≤ latitude) (h3 : latitude < 2147483560) :
    encode longitude latitude = some (printLocator
      (toSChar (ASCII_UPPER + fieldLonIndex longitude))
      (toSChar (ASCII_UPPER + fieldLatIndex latitude))
      (toSChar (squareLon longitude)) (toSChar (squareLat latitude))
      (toSChar (ASCII_LOWER + subLon longitude))
      (toSChar (ASCII_LOWER + subLat latitude))) := by
  simp only [encode, bind, Option.bind, pure, lonChars_eq longitude h0 h1,
    latChars_eq latitude h2 h3]

/-- The text printed for a coordinate of the data model. -/
theorem encode_valid (longitude latitude : ℚ) (h0 : -180 ≤ longitude)
    (h1 : longitude ≤ 180) (h2 : -90 ≤ latitude) (h3 : latitude ≤ 90) :
    encode longitude latitude
      = some (String.mk (Spec.locator longitude latitude ++ ['\n'])) := by
  rw [encode_eq longitude latitude h0 (by linarith) h2 (by linarith)]
  have a1 := Spec.fieldLonIndex_nonneg h0
  have a2 : Spec.fieldLonIndex longitude ≤ 18 :=
    Spec.fieldLonIndex_le (by push_cast; linarith)
  have b1 := Spec.fieldLatIndex_nonneg h2
  have b2 : Spec.fieldLatIndex latitude ≤ 18 :=
    Spec.fieldLatIndex_le (by push_cast; linarith)
  have c := Spec.squareLon_range longitude
  have d := Spec.squareLat_range latitude
  have e := Spec.subLon_range longitude
  have f := Spec.subLat_range latitude
  simp only [printLocator, fmtC_upper _ a1 a2, fmtC_upper _ b1 b2, fmtD_digit _ c.1 c.2,
    fmtD_digit _ d.1 d.2, fmtC_lower _ e.1 e.2, fmtC_lower _ f.1 f.2, Spec.locator,
    List.cons_append, List.nil_append]

/-- A run with at least two positional arguments. -/
theorem main_two (st : Globals) (argv0 lon lat : String) (rest : List String) :
    main st argv0 (lon :: lat :: rest) =
      { stdout := (atof lon).bind (fun x => (atof lat).bind (fun y => encode x y)),
        stderr := "", status := 0,
        globals := { longitude := atof lon, latitude := atof lat } } := by
  have h : ¬ (1 + (lon :: lat :: rest).length < 3) := by
    simp only [List.length_cons]; omega
  unfold main
  rw [dif_neg h]
  rfl

/-- A run with fewer than two positional arguments. -/
theorem main_few (st : Globals) (argv0 : String) (args : List String)
    (h : args.length < 2) :
    main st argv0 args =
      { stdout := some "", stderr := "usage: " ++ argv0 ++ " LON LAT\n", status := 1,
        globals := st } := by
  have : 1 + args.length < 3 := by omega
  simp [main, this]

end Grid

/-! ## The claims -/

namespace Grid

/-- C1: for every longitude in [-180, 180] and latitude in [-90, 90] the text
computed by `main` is the six characters
`[fieldLon][fieldLat][squareLon][squareLat][subLon][subLat]` of the
specification's formulas, in that interleaved order, followed by the newline;
this is what a run prints whose two arguments `atof` converts to these values. -/
theorem C1_locator_formula (longitude latitude : ℚ)
    (hlon : -180 ≤ longitude ∧ longitude ≤ 180) (hlat : -90 ≤ latitude ∧ latitude ≤ 90) :
    encode longitude latitude
        = some (String.mk (Spec.locator longitude latitude ++ ['\n'])) ∧
    ∀ (st : Globals) (argv0 lon lat : String) (rest : List String),
      atof lon = some longitude → atof lat = some latitude →
      (main st argv0 (lon :: lat :: rest)).stdout
        = some (String.mk (Spec.locator longitude latitude ++ ['\n'])) := by
  have h := encode_valid longitude latitude hlon.1 hlon.2 hlat.1 hlat.2
  refine ⟨h, ?_⟩
  intro st argv0 lon lat rest e1 e2
  rw [main_two, e1, e2]
  exact h

/-- Witness for C1 at longitude -122.3, latitude 47.6 (arguments "-122.3" and "47.6"). -/
theorem C1_locator_formula_witness :
    (-180 ≤ (-1223 / 10 : ℚ) ∧ (-1223 / 10 : ℚ) ≤ 180) ∧
    (-90 ≤ (238 / 5 : ℚ) ∧ (238 / 5 : ℚ) ≤ 90) ∧
    encode (-1223 / 10) (238 / 5)
        = some (String.mk (Spec.locator (-1223 / 10) (238 / 5) ++ ['\n'])) :=
  ⟨by norm_num, by norm_num,
   (C1_locator_formula (-1223 / 10) (238 / 5) (by norm_num) (by norm_num)).1⟩


/-- C3: `encode(0, 0)` is "JJ00aa": a run of `main` with the arguments "0" and
"0" prints JJ00aa followed by a newline, nothing on the error stream, and
returns 0. -/
theorem C3_origin_is_JJ00aa (st : Globals) (argv0 : String) :
    encode 0 0 = some "JJ00aa\n" ∧
    (main st argv0 ["0", "0"]).stdout = some "JJ00aa\n" ∧
    (main st argv0 ["0", "0"]).stderr = "" ∧
    (main st argv0 ["0", "0"]).status = 0 := by
  have h0 : atof "0" = some 0 := by decide!
  have h1 : encode 0 0 = some "JJ00aa\n" := by decide!
  rw [main_two, h0]
  exact ⟨h1, h1, rfl, rfl⟩

/-- C5: for every coordinate of the data model (longitude in [-180, 180],
latitude in [-90, 90]) the two square values `g3` and `g4` are integers in
0..9, and `%d` prints each as exactly one character in '0'..'9'. -/
theorem C5_square_values_single_digit (longitude latitude : ℚ)
    (hlon : -180 ≤ longitude ∧ longitude ≤ 180) (hlat : -90 ≤ latitude ∧ latitude ≤ 90) :
    ∃ (g1 g3 g5 g2 g4 g6 : Int) (c3 c4 : Char),
      lonChars longitude = some (g1, g3, g5) ∧ latChars latitude = some (g2, g4, g6) ∧
      (0 ≤ g3 ∧ g3 ≤ 9) ∧ (0 ≤ g4 ∧ g4 ≤ 9) ∧
      fmtD g3 = [c3] ∧ fmtD g4 = [c4] ∧
      ('0' ≤ c3 ∧ c3 ≤ '9') ∧ ('0' ≤ c4 ∧ c4 ≤ '9') := by
  have c := Spec.squareLon_range longitude
  have d := Spec.squareLat_range latitude
  have hD : ∀ i : Int, 0 ≤ i → i ≤ 9 →
      (0 ≤ toSChar i ∧ toSChar i ≤ 9) ∧ ('0' ≤ Spec.digit i ∧ Spec.digit i ≤ '9') := by
    intro i h0 h1
    interval_cases i <;> decide
  exact ⟨_, _, _, _, _, _, _, _,
    lonChars_eq longitude hlon.1 (by linarith), latChars_eq latitude hlat.1 (by linarith),
    (hD _ c.1 c.2).1, (hD _ d.1 d.2).1, fmtD_digit _ c.1 c.2, fmtD_digit _ d.1 d.2,
    (hD _ c.1 c.2).2, (hD _ d.1 d.2).2⟩

/-- Witness for C5 at the corner longitude 180, latitude 90. -/
theorem C5_square_values_single_digit_witness :
    ∃ (g1 g3 g5 g2 g4 g6 : Int) (c3 c4 : Char),
      lonChars 180 = some (g1, g3, g5) ∧ latChars 90 = some (g2, g4, g6) ∧
      (0 ≤ g3 ∧ g3 ≤ 9) ∧ (0 ≤ g4 ∧ g4 ≤ 9) ∧
      fmtD g3 = [c3] ∧ fmtD g4 = [c4] ∧
      ('0' ≤ c3 ∧ c3 ≤ '9') ∧ ('0' ≤ c4 ∧ c4 ≤ '9') :=
  C5_square_values_single_digit 180 90 (by norm_num) (by norm_num)

/-- C6: for every coordinate of the data model (longitude in [-180, 180],
latitude in [-90, 90]) the subsquare indices `floor(fraction * 24)` are in
0..23, the variables `g5` and `g6` hold `97 + index`, and the fifth and sixth
characters of the output lie in 'a'..'x'. -/
theorem C6_subsquare_chars_in_a_x (longitude latitude : ℚ)
    (hlon : -180 ≤ longitude ∧ longitude ≤ 180) (hlat : -90 ≤ latitude ∧ latitude ≤ 90) :
    ∃ (g1 g3 g5 g2 g4 g6 : Int) (c1 c2 c3 c4 c5 c6 : Char),
      lonChars longitude = some (g1, g3, g5) ∧ latChars latitude = some (g2, g4, g6) ∧
      (0 ≤ g5 - 97 ∧ g5 - 97 ≤ 23) ∧ (0 ≤ g6 - 97 ∧ g6 - 97 ≤ 23) ∧
      encode longitude latitude = some (String.mk [c1, c2, c3, c4, c5, c6, '\n']) ∧
      ('a' ≤ c5 ∧ c5 ≤ 'x') ∧ ('a' ≤ c6 ∧ c6 ≤ 'x') := by
  have e := Spec.subLon_range longitude
  have f := Spec.subLat_range latitude
  have hL : ∀ i : Int, 0 ≤ i → i ≤ 23 →
      (0 ≤ toSChar (ASCII_LOWER + i) - 97 ∧ toSChar (ASCII_LOWER + i) - 97 ≤ 23) ∧
      ('a' ≤ Spec.letter 'a' i ∧ Spec.letter 'a' i ≤ 'x') := by
    intro i h0 h1
    interval_cases i <;> decide
  exact ⟨_, _, _, _, _, _, _, _, _, _, _, _,
    lonChars_eq longitude hlon.1 (by linarith), latChars_eq latitude hlat.1 (by linarith),
    (hL _ e.1 e.2).1, (hL _ f.1 f.2).1,
    encode_valid longitude latitude hlon.1 hlon.2 hlat.1 hlat.2,
    (hL _ e.1 e.2).2, (hL _ f.1 f.2).2⟩

/-- Witness for C6 at longitude -122.3, latitude 47.6. -/
theorem C6_subsquare_chars_in_a_x_witness :
    ∃ (g1 g3 g5 g2 g4 g6 : Int) (c1 c2 c3 c4 c5 c6 : Char),
      lonChars (-1223 / 10) = some (g1, g3, g5) ∧ latChars (238 / 5) = some (g2, g4, g6) ∧
      (0 ≤ g5 - 97 ∧ g5 - 97 ≤ 23) ∧ (0 ≤ g6 - 97 ∧ g6 - 97 ≤ 23) ∧
      encode (-1223 / 10) (238 / 5) = some (String.mk [c1, c2, c3, c4, c5, c6, '\n']) ∧
      ('a' ≤ c5 ∧ c5 ≤ 'x') ∧ ('a' ≤ c6 ∧ c6 ≤ 'x') :=
  C6_subsquare_chars_in_a_x (-1223 / 10) (238 / 5) (by norm_num) (by norm_num)

/-- C7: `main` reports a usage error exactly when it is given fewer than two
positional arguments.  With zero or one positional argument it writes the line
"usage: <program-name> LON LAT" to the error stream, nothing to standard
output, and exits with status 1; with two or more it writes nothing to the
error stream and returns status 0. -/
theorem C7_usage_iff_fewer_than_two_args (st : Globals) (argv0 : String)
    (args : List String) :
    (args.length < 2 →
      (main st argv0 args).stderr = "usage: " ++ argv0 ++ " LON LAT\n" ∧
      (main st argv0 args).stdout = some "" ∧
      (main st argv0 args).status = 1) ∧
    (2 ≤ args.length →
      (main st argv0 args).stderr = "" ∧ (main st argv0 args).status = 0) := by
  constructor
  · intro h
    rw [main_few st argv0 args h]
    exact ⟨rfl, rfl, rfl⟩
  · intro h
    match args, h with
    | lon :: lat :: rest, _ =>
      rw [main_two]
      exact ⟨rfl, rfl⟩

/-- Witness for C7: one argument ("5") and three arguments ("5", "6", "7"). -/
theorem C7_usage_iff_fewer_than_two_args_witness :
    ((main Globals.init "grid" ["5"]).stderr = "usage: " ++ "grid" ++ " LON LAT\n" ∧
      (main Globals.init "grid" ["5"]).stdout = some "" ∧
      (main Globals.init "grid" ["5"]).status = 1) ∧
    ((main Globals.init "grid" ["5", "6", "7"]).stderr = "" ∧
      (main Globals.init "grid" ["5", "6", "7"]).status = 0) :=
  ⟨(C7_usage_iff_fewer_than_two_args Globals.init "grid" ["5"]).1 (by decide),
   (C7_usage_iff_fewer_than_two_args Globals.init "grid" ["5", "6", "7"]).2 (by decide)⟩

/-- C10, as stated, fails for the arguments "abc" and "1": `atof` performs no
conversion on "abc" and returns zero, and the program prints the locator
JJ01aa of longitude 0, latitude 1, writes nothing to the error stream and
returns status 0. -/
theorem C10_counterexample :
    scan "abc".data = Scanned.noconv ∧
    main Globals.init "grid" ["abc", "1"] =
      { stdout := some "JJ01aa\n", stderr := "", status := 0,
        globals := { longitude := some 0, latitude := some 1 } } := by
  decide!

/-- C10, amended: for every invocation with two or more arguments the program
reports no usage error and returns status 0, whatever the text of the
arguments; an argument on which `atof` can perform no conversion counts as
zero, and the program prints what it prints for the value 0 in its place. -/
theorem C10_unparsable_argument_is_zero (st : Globals) (argv0 lon lat : String)
    (rest : List String) :
    (main st argv0 (lon :: lat :: rest)).stderr = "" ∧
    (main st argv0 (lon :: lat :: rest)).status = 0 ∧
    (scan lon.data = Scanned.noconv →
      atof lon = some 0 ∧
      (main st argv0 (lon :: lat :: rest)).stdout
        = (atof lat).bind (fun latitude => encode 0 latitude)) ∧
    (scan lat.data = Scanned.noconv →
      atof lat = some 0 ∧
      (main st argv0 (lon :: lat :: rest)).stdout
        = (atof lon).bind (fun longitude => encode longitude 0)) := by
  rw [main_two]
  refine ⟨rfl, rfl, ?_, ?_⟩
  · intro h
    have h0 : atof lon = some 0 := by simp [atof, h, Scanned.value]
    exact ⟨h0, by simp [h0]⟩
  · intro h
    have h0 : atof lat = some 0 := by simp [atof, h, Scanned.value]
    refine ⟨h0, ?_⟩
    simp only [h0]
    cases atof lon <;> rfl

/-- Witness for the amended C10: the arguments "abc" and "1". -/
theorem C10_unparsable_argument_is_zero_witness :
    atof "abc" = some 0 ∧
    (main Globals.init "grid" ["abc", "1"]).stdout
      = (atof "1").bind (fun latitude => encode 0 latitude) :=
  (C10_unparsable_argument_is_zero Globals.init "grid" "abc" "1" []).2.2.1 (by decide)

end Grid

/-! ## The local variables of the two blocks -/

namespace Grid

/-- The `char` variables of the longitude block are those of its local variables. -/
theorem lonChars_eq_vars (longitude : ℚ) :
    lonChars longitude = (lonVars longitude).bind BlockVars.chars := by
  simp only [lonChars, lonVars, BlockVars.chars, bind, pure]
  rcases checkInt (truncf ((180 + longitude) / 20)) with _ | i
  · rfl
  simp only [Option.some_bind]
  rcases checkInt (i * 20) with _ | m
  · rcases checkInt (ASCII_UPPER + i) with _ | a <;> rfl
  simp only [Option.some_bind]
  rcases checkInt (truncf (((180 + longitude - (m : ℚ)) / 2
        - (truncf ((180 + longitude - (m : ℚ)) / 2) : ℚ)) * 24)) with _ | t
  · rcases checkInt (ASCII_UPPER + i) with _ | a
    · rfl
    · rcases checkInt (truncf ((180 + longitude - (m : ℚ)) / 2)) with _ | b <;> rfl
  simp only [Option.some_bind]

/-- The `char` variables of the latitude block are those of its local variables. -/
theorem latChars_eq_vars (latitude : ℚ) :
    latChars latitude = (latVars latitude).bind BlockVars.chars := by
  simp only [latChars, latVars, BlockVars.chars, bind, pure]
  rcases checkInt (truncf ((90 + latitude) / 10)) with _ | i
  · rfl
  simp only [Option.some_bind]
  rcases checkInt (i * 10) with _ | m
  · rcases checkInt (ASCII_UPPER + i) with _ | a <;> rfl
  simp only [Option.some_bind]
  rcases checkInt (truncf (((90 + latitude - (m : ℚ))
        - (truncf (90 + latitude - (m : ℚ)) : ℚ)) * 24)) with _ | t
  · rcases checkInt (ASCII_UPPER + i) with _ | a
    · rfl
    · rcases checkInt (truncf (90 + latitude - (m : ℚ))) with _ | b <;> rfl
  simp only [Option.some_bind]

open Spec in
/-- The local variables of the longitude block, for
`0 ≤ 180 + longitude < 2147483660`: they are the indices and the remainder of
the specification. -/
theorem lonVars_eq (longitude : ℚ) (h0 : -180 ≤ longitude)
    (h1 : 180 + longitude < 2147483660) :
    lonVars longitude = some
      { i := fieldLonIndex longitude, f1 := remLon longitude,
        f2 := squareLon longitude, sub := subLon longitude } := by
  have hi := fieldLonIndex_nonneg h0
  have hi2 : fieldLonIndex longitude < 107374183 :=
    fieldLonIndex_lt (by push_cast; linarith)
  have hr := remLon_range longitude
  have hb := subLon_range longitude
  have e1 : truncf ((180 + longitude) / 20) = fieldLonIndex longitude := by
    rw [truncf_of_nonneg (by linarith), add_comm]; rfl
  have e2 : (180 + longitude) - ((fieldLonIndex longitude * 20 : Int) : ℚ)
      = remLon longitude := by
    unfold remLon lon360; push_cast; ring
  have e3 : truncf (remLon longitude / 2) = squareLon longitude := by
    rw [truncf_of_nonneg (by linarith)]; rfl
  have e4 : truncf ((remLon longitude / 2 - (squareLon longitude : Int)) * 24)
      = subLon longitude := by
    rw [truncf_of_nonneg]
    · rfl
    · have := Int.floor_le (remLon longitude / 2)
      unfold squareLon; linarith
  simp only [lonVars, bind, pure, e1]
  rw [checkInt_of_range (by omega) (by omega)]
  simp only [Option.some_bind]
  rw [checkInt_of_range (by omega) (by omega)]
  simp only [Option.some_bind, e2, e3, e4]
  rw [checkInt_of_range (by omega) (by omega)]
  simp only [Option.some_bind]

open Spec in
/-- The local variables of the latitude block, for
`0 ≤ 90 + latitude < 2147483650`: they are the indices and the remainder of
the specification. -/
theorem latVars_eq (latitude : ℚ) (h0 : -90 ≤ latitude)
    (h1 : 90 + latitude < 2147483650) :
    latVars latitude = some
      { i := fieldLatIndex latitude, f1 := remLat latitude,
        f2 := squareLat latitude, sub := subLat latitude } := by
  have hi := fieldLatIndex_nonneg h0
  have hi2 : fieldLatIndex latitude < 214748365 :=
    fieldLatIndex_lt (by push_cast; linarith)
  have hr := remLat_range latitude
  have hb := subLat_range latitude
  have e1 : truncf ((90 + latitude) / 10) = fieldLatIndex latitude := by
    rw [truncf_of_nonneg (by linarith), add_comm]; rfl
  have e2 : (90 + latitude) - ((fieldLatIndex latitude * 10 : Int) : ℚ)
      = remLat latitude := by
    unfold remLat lat180; push_cast; ring
  have e3 : truncf (remLat latitude) = squareLat latitude := by
    rw [truncf_of_nonneg (by linarith)]; rfl
  have e4 : truncf ((remLat latitude - (squareLat latitude : Int)) * 24)
      = subLat latitude := by
    rw [truncf_of_nonneg]
    · rfl
    · have := Int.floor_le (remLat latitude)
      unfold squareLat; linarith
  simp only [latVars, bind, pure, e1]
  rw [checkInt_of_range (by omega) (by omega)]
  simp only [Option.some_bind]
  rw [checkInt_of_range (by omega) (by omega)]
  simp only [Option.some_bind, e2, e3, e4]
  rw [checkInt_of_range (by omega) (by omega)]
  simp only [Option.some_bind]

namespace Spec

end Spec


/-- C11: each axis is encoded independently.  For a longitude and two latitudes
of the data model the first, third and fifth characters of the two outputs are
equal; for a latitude and two longitudes of the data model the second, fourth
and sixth characters of the two outputs are equal. -/
theorem C11_axes_independent :
    (∀ longitude lat1 lat2 : ℚ, -180 ≤ longitude ∧ longitude ≤ 180 →
      -90 ≤ lat1 ∧ lat1 ≤ 90 → -90 ≤ lat2 ∧ lat2 ≤ 90 →
      ∃ c1 c3 c5 a2 a4 a6 b2 b4 b6 : Char,
        encode longitude lat1 = some (String.mk [c1, a2, c3, a4, c5, a6, '\n']) ∧
        encode longitude lat2 = some (String.mk [c1, b2, c3, b4, c5, b6, '\n'])) ∧
    (∀ latitude lon1 lon2 : ℚ, -90 ≤ latitude ∧ latitude ≤ 90 →
      -180 ≤ lon1 ∧ lon1 ≤ 180 → -180 ≤ lon2 ∧ lon2 ≤ 180 →
      ∃ c2 c4 c6 a1 a3 a5 b1 b3 b5 : Char,
        encode lon1 latitude = some (String.mk [a1, c2, a3, c4, a5, c6, '\n']) ∧
        encode lon2 latitude = some (String.mk [b1, c2, b3, c4, b5, c6, '\n'])) := by
  constructor
  · intro longitude lat1 lat2 h h1 h2
    exact ⟨_, _, _, _, _, _, _, _, _, encode_valid longitude lat1 h.1 h.2 h1.1 h1.2,
      encode_valid longitude lat2 h.1 h.2 h2.1 h2.2⟩
  · intro latitude lon1 lon2 h h1 h2
    exact ⟨_, _, _, _, _, _, _, _, _, encode_valid lon1 latitude h1.1 h1.2 h.1 h.2,
      encode_valid lon2 latitude h2.1 h2.2 h.1 h.2⟩

/-- Witness for C11: longitude -122.3 with latitudes 47.6 and -33, and latitude
47.6 with longitudes -122.3 and 151. -/
theorem C11_axes_independent_witness :
    (∃ c1 c3 c5 a2 a4 a6 b2 b4 b6 : Char,
        encode (-1223 / 10) (238 / 5) = some (String.mk [c1, a2, c3, a4, c5, a6, '\n']) ∧
        encode (-1223 / 10) (-33) = some (String.mk [c1, b2, c3, b4, c5, b6, '\n'])) ∧
    (∃ c2 c4 c6 a1 a3 a5 b1 b3 b5 : Char,
        encode (-1223 / 10) (238 / 5) = some (String.mk [a1, c2, a3, c4, a5, c6, '\n']) ∧
        encode 151 (238 / 5) = some (String.mk [b1, c2, b3, c4, b5, c6, '\n'])) :=
  ⟨C11_axes_independent.1 (-1223 / 10) (238 / 5) (-33) (by norm_num) (by norm_num)
      (by norm_num),
   C11_axes_independent.2 (238 / 5) (-1223 / 10) 151 (by norm_num) (by norm_num)
      (by norm_num)⟩

/-- C12: the encoding is a function of the arguments alone.  With the
process-wide variables `longitude` and `latitude` as explicit state, two runs
on the same argument vector from any two initial states write the same text to
standard output and to the error stream and return the same status, and a
second run that starts from the state the first one left writes and returns
the same again. -/
theorem C12_output_independent_of_globals (st1 st2 : Globals) (argv0 : String)
    (args : List String) :
    (main st1 argv0 args).stdout = (main st2 argv0 args).stdout ∧
    (main st1 argv0 args).stderr = (main st2 argv0 args).stderr ∧
    (main st1 argv0 args).status = (main st2 argv0 args).status ∧
    (main (main st1 argv0 args).globals argv0 args).stdout = (main st1 argv0 args).stdout ∧
    (main (main st1 argv0 args).globals argv0 args).status = (main st1 argv0 args).status := by
  match args with
  | [] => exact ⟨rfl, rfl, rfl, rfl, rfl⟩
  | [_] => exact ⟨rfl, rfl, rfl, rfl, rfl⟩
  | lon :: lat :: rest =>
    simp only [main_two, and_self]

end Grid

/-! ## Single precision: rounding below a point of the format -/

namespace Grid

theorem roundHalfEven_le {q : ℚ} {n : Int} (h : q ≤ n) : roundHalfEven q ≤ n := by
  have h1 := Int.floor_le q
  have h2 := Int.lt_floor_add_one q
  have h3 : ⌊q⌋ ≤ n := Int.floor_le_iff.mpr (by linarith)
  unfold roundHalfEven
  by_cases hq : ⌊q⌋ = n
  · have : q - (⌊q⌋ : ℚ) < 1 / 2 := by rw [hq]; linarith
    rw [if_pos this]; exact h3
  · have h4 : ⌊q⌋ + 1 ≤ n := by omega
    split_ifs <;> omega

theorem roundHalfEven_le_pred {q : ℚ} {n : Int} (h : q < n - 1 / 2) :
    roundHalfEven q ≤ n - 1 := by
  have h1 := Int.floor_le q
  have h2 := Int.lt_floor_add_one q
  have h3 : ⌊q⌋ < n := Int.floor_lt.mpr (by linarith)
  unfold roundHalfEven
  by_cases hq : ⌊q⌋ = n - 1
  · have : q - (⌊q⌋ : ℚ) < 1 / 2 := by rw [hq]; push_cast; linarith
    rw [if_pos this]; omega
  · split_ifs <;> omega

theorem roundHalfEven_nonneg {q : ℚ} (h : 0 ≤ q) : 0 ≤ roundHalfEven q := by
  have h3 : 0 ≤ ⌊q⌋ := Int.floor_nonneg.mpr h
  unfold roundHalfEven
  split_ifs <;> omega

/-- A positive number lies below the power of two that follows its binade. -/
theorem lt_two_zpow_ulpExp {x : ℚ} (hx : 0 < x) : x < 2 ^ (ulpExp x + 24) := by
  have h := Int.lt_zpow_succ_log_self (b := 2) (by norm_num) x
  rw [Nat.cast_ofNat] at h
  refine lt_of_lt_of_le h ?_
  apply zpow_le_zpow_right₀ (by norm_num)
  unfold ulpExp
  rw [abs_of_pos hx]
  have := le_max_left (Int.log 2 x) (-126)
  omega

theorem ulpExp_le {x : ℚ} {E : Int} (hx : 0 < x) (hE : -126 ≤ E) (h : x < 2 ^ (E + 1)) :
    ulpExp x ≤ E - 23 := by
  have h1 : Int.log 2 x < E + 1 := by
    rw [← Int.lt_zpow_iff_log_lt (by norm_num) hx, Nat.cast_ofNat]
    exact h
  unfold ulpExp
  rw [abs_of_pos hx]
  have : max (Int.log 2 x) (-126) ≤ E := max_le (by omega) hE
  omega


/-- Rounding to binary32 of a number below the midpoint under `N * 2^(E-23)`, a
point of the binade of exponent `E`: the result is a number from zero to the
point before it. -/
theorem roundF32_below (E N : Int) (x : ℚ) (hE : -126 ≤ E) (hN : (8388608 : ℚ) ≤ N - 1)
    (hx0 : 0 ≤ x) (hx : x < ((N : ℚ) - 1 / 2) * 2 ^ (E - 23)) (hxE : x < 2 ^ (E + 1))
    (hsmall : ((N : ℚ) - 1) * 2 ^ (E - 23) < 2 ^ 128) :
    ∃ r : ℚ, roundF32 x = some r ∧ 0 ≤ r ∧ r ≤ ((N : ℚ) - 1) * 2 ^ (E - 23) := by
  have hEpos : (0 : ℚ) < 2 ^ (E - 23) := zpow_pos (by norm_num) _
  rcases hx0.eq_or_lt with rfl | hpos
  · refine ⟨0, ?_, le_refl _, ?_⟩
    · simp [roundF32, roundHalfEven]
    · exact mul_nonneg (by linarith) hEpos.le
  · have hu : ulpExp x ≤ E - 23 := ulpExp_le hpos hE hxE
    have hupos : (0 : ℚ) < 2 ^ ulpExp x := zpow_pos (by norm_num) _
    have hk0 : 0 ≤ roundHalfEven (x / 2 ^ ulpExp x) :=
      roundHalfEven_nonneg (div_nonneg hx0 hupos.le)
    have hr0 : (0 : ℚ) ≤ (roundHalfEven (x / 2 ^ ulpExp x) : ℚ) * 2 ^ ulpExp x :=
      mul_nonneg (by exact_mod_cast hk0) hupos.le
    have hr : (roundHalfEven (x / 2 ^ ulpExp x) : ℚ) * 2 ^ ulpExp x
        ≤ ((N : ℚ) - 1) * 2 ^ (E - 23) := by
      by_cases hu' : ulpExp x = E - 23
      · rw [hu'] at *
        have h1 : x / 2 ^ (E - 23) < ((N : Int) : ℚ) - 1 / 2 := by
          rw [div_lt_iff₀ hEpos]; exact hx
        have h2 := roundHalfEven_le_pred h1
        have h3 : (roundHalfEven (x / 2 ^ (E - 23)) : ℚ) ≤ (N : ℚ) - 1 := by
          exact_mod_cast h2
        exact mul_le_mul_of_nonneg_right h3 hEpos.le
      · have h24 : ulpExp x + 24 ≤ E := by omega
        have h1 : x / 2 ^ ulpExp x < ((16777216 : Int) : ℚ) := by
          rw [div_lt_iff₀ hupos]
          have := lt_two_zpow_ulpExp hpos
          rw [add_comm, zpow_add₀ (by norm_num : (2 : ℚ) ≠ 0)] at this
          norm_num at this ⊢
          exact this
        have h2 := roundHalfEven_le h1.le
        have h3 : (roundHalfEven (x / 2 ^ ulpExp x) : ℚ) ≤ 16777216 := by
          exact_mod_cast h2
        calc (roundHalfEven (x / 2 ^ ulpExp x) : ℚ) * 2 ^ ulpExp x
            ≤ 16777216 * 2 ^ ulpExp x := mul_le_mul_of_nonneg_right h3 hupos.le
          _ = 2 ^ (ulpExp x + 24) := by
            rw [zpow_add₀ (by norm_num : (2 : ℚ) ≠ 0)]; norm_num; ring
          _ ≤ 2 ^ E := zpow_le_zpow_right₀ (by norm_num) h24
          _ = 8388608 * 2 ^ (E - 23) := by
            rw [sub_eq_add_neg, zpow_add₀ (by norm_num : (2 : ℚ) ≠ 0)]; norm_num; ring
          _ ≤ ((N : ℚ) - 1) * 2 ^ (E - 23) := mul_le_mul_of_nonneg_right hN hEpos.le
    refine ⟨_, ?_, hr0, hr⟩
    unfold roundF32
    simp only []
    rw [if_pos]
    rw [abs_of_nonneg hr0]
    exact lt_of_le_of_lt hr hsmall

/-- The field letter of the longitude in single precision, for a sum
`180 + longitude` from zero to below the midpoint under 360. -/
theorem lonFieldF32_range (longitude : ℚ) (h0 : -180 ≤ longitude)
    (h1 : longitude < 180 - 1 / 65536) :
    ∃ (f_lon : ℚ) (g1 : Int), roundF32 (180 + longitude) = some f_lon ∧ f_lon < 360 ∧
      lonFieldF32 longitude = some g1 ∧ 65 ≤ g1 ∧ g1 ≤ 82 := by
  obtain ⟨f, hf, hf0, hf1⟩ := roundF32_below 8 11796480 (180 + longitude) (by norm_num)
    (by norm_num) (by linarith) (by norm_num; linarith) (by norm_num; linarith)
    (by norm_num)
  norm_num at hf1
  obtain ⟨q, hq, hq0, hq1⟩ := roundF32_below 4 9437184 (f / 20) (by norm_num)
    (by norm_num) (by linarith) (by norm_num; linarith) (by norm_num; linarith)
    (by norm_num)
  norm_num at hq1
  have hi := @floor_range q 18 hq0 (by push_cast; linarith)
  refine ⟨f, toSChar (ASCII_UPPER + ⌊q⌋), hf, by linarith, ?_, ?_⟩
  · simp only [lonFieldF32, hf, hq, bind, pure, Option.some_bind, truncf_of_nonneg hq0]
    rw [checkInt_of_range (by omega) (by omega)]
    simp only [Option.some_bind]
    rw [checkInt_of_range (by unfold ASCII_UPPER; omega) (by unfold ASCII_UPPER; omega)]
    simp only [Option.some_bind]
  · unfold toSChar ASCII_UPPER; omega

/-- The field letter of the latitude in single precision, for a sum
`90 + latitude` from zero to below the midpoint under 180. -/
theorem latFieldF32_range (latitude : ℚ) (h0 : -90 ≤ latitude)
    (h1 : latitude < 90 - 1 / 131072) :
    ∃ (f_lat : ℚ) (g2 : Int), roundF32 (90 + latitude) = some f_lat ∧ f_lat < 180 ∧
      latFieldF32 latitude = some g2 ∧ 65 ≤ g2 ∧ g2 ≤ 82 := by
  obtain ⟨f, hf, hf0, hf1⟩ := roundF32_below 7 11796480 (90 + latitude) (by norm_num)
    (by norm_num) (by linarith) (by norm_num; linarith) (by norm_num; linarith)
    (by norm_num)
  norm_num at hf1
  obtain ⟨q, hq, hq0, hq1⟩ := roundF32_below 4 9437184 (f / 10) (by norm_num)
    (by norm_num) (by linarith) (by norm_num; linarith) (by norm_num; linarith)
    (by norm_num)
  norm_num at hq1
  have hi := @floor_range q 18 hq0 (by push_cast; linarith)
  refine ⟨f, toSChar (ASCII_UPPER + ⌊q⌋), hf, by linarith, ?_, ?_⟩
  · simp only [latFieldF32, hf, hq, bind, pure, Option.some_bind, truncf_of_nonneg hq0]
    rw [checkInt_of_range (by omega) (by omega)]
    simp only [Option.some_bind]
    rw [checkInt_of_range (by unfold ASCII_UPPER; omega) (by unfold ASCII_UPPER; omega)]
    simp only [Option.some_bind]
  · unfold toSChar ASCII_UPPER; omega

theorem roundHalfEven_ge {q : ℚ} {n : Int} (h : (n : ℚ) ≤ q) : n ≤ roundHalfEven q := by
  have h3 : n ≤ ⌊q⌋ := Int.le_floor.mpr h
  unfold roundHalfEven
  split_ifs <;> omega

theorem ulpExp_abs (x : ℚ) : ulpExp |x| = ulpExp x := by
  unfold ulpExp; rw [abs_abs]

/-- Rounding to binary32 of a number below a power of two in absolute value:
the result is a number that does not exceed this power in absolute value. -/
theorem roundF32_abs_le (E : Int) (x : ℚ) (hE : -126 ≤ E) (hE2 : E ≤ 126)
    (hx : |x| < 2 ^ (E + 1)) :
    ∃ r : ℚ, roundF32 x = some r ∧ |r| ≤ 2 ^ (E + 1) := by
  have hpow : (0 : ℚ) < 2 ^ (E + 1) := zpow_pos (by norm_num) _
  have hbig : (2 : ℚ) ^ (E + 1) < 2 ^ 128 := by
    have : (2 : ℚ) ^ (E + 1) ≤ 2 ^ (127 : Int) :=
      zpow_le_zpow_right₀ (by norm_num) (by omega)
    refine lt_of_le_of_lt this ?_
    norm_num
  rcases eq_or_ne x 0 with rfl | hne
  · refine ⟨0, ?_, ?_⟩
    · simp [roundF32, roundHalfEven]
    · rw [abs_zero]; exact hpow.le
  · have habs : 0 < |x| := abs_pos.mpr hne
    have hu : ulpExp x ≤ E - 23 := by
      rw [← ulpExp_abs]; exact ulpExp_le habs hE hx
    have hupos : (0 : ℚ) < 2 ^ ulpExp x := zpow_pos (by norm_num) _
    have hlt : |x| < 16777216 * 2 ^ ulpExp x := by
      have := lt_two_zpow_ulpExp habs
      rw [ulpExp_abs, add_comm, zpow_add₀ (by norm_num : (2 : ℚ) ≠ 0)] at this
      norm_num at this ⊢
      exact this
    have hq : |x / 2 ^ ulpExp x| < 16777216 := by
      rw [abs_div, abs_of_pos hupos, div_lt_iff₀ hupos]; exact hlt
    have hq' := abs_lt.mp hq
    have h1 : roundHalfEven (x / 2 ^ ulpExp x) ≤ 16777216 :=
      roundHalfEven_le (by push_cast; linarith)
    have h2 : -16777216 ≤ roundHalfEven (x / 2 ^ ulpExp x) :=
      roundHalfEven_ge (by push_cast; linarith)
    have h3 : |(roundHalfEven (x / 2 ^ ulpExp x) : ℚ)| ≤ 16777216 := by
      rw [abs_le]; constructor
      · exact_mod_cast h2
      · exact_mod_cast h1
    have hr : |(roundHalfEven (x / 2 ^ ulpExp x) : ℚ) * 2 ^ ulpExp x| ≤ 2 ^ (E + 1) := by
      rw [abs_mul, abs_of_pos hupos]
      calc |(roundHalfEven (x / 2 ^ ulpExp x) : ℚ)| * 2 ^ ulpExp x
          ≤ 16777216 * 2 ^ ulpExp x := mul_le_mul_of_nonneg_right h3 hupos.le
        _ = 2 ^ (ulpExp x + 24) := by
          rw [zpow_add₀ (by norm_num : (2 : ℚ) ≠ 0)]; norm_num; ring
        _ ≤ 2 ^ (E + 1) := zpow_le_zpow_right₀ (by norm_num) (by omega)
    refine ⟨_, ?_, hr⟩
    unfold roundF32
    simp only []
    rw [if_pos (lt_of_le_of_lt hr hbig)]

theorem truncf_abs_le (x : ℚ) (n : Int) (h : |x| ≤ n) : -n ≤ truncf x ∧ truncf x ≤ n := by
  have h' := abs_le.mp h
  unfold truncf
  split_ifs with h0
  · constructor
    · have : 0 ≤ ⌊x⌋ := Int.floor_nonneg.mpr h0
      have : (0 : ℚ) ≤ n := le_trans (abs_nonneg x) h
      have : (0 : Int) ≤ n := by exact_mod_cast this
      omega
    · have : ⌊x⌋ ≤ ⌊(n : ℚ)⌋ := Int.floor_mono h'.2
      simpa using this
  · constructor
    · have h3 : ((-n : Int) : ℚ) ≤ (⌈x⌉ : ℚ) := by
        push_cast; exact le_trans h'.1 (Int.le_ceil x)
      exact_mod_cast h3
    · have hx : x ≤ 0 := le_of_lt (not_le.mp h0)
      have : ⌈x⌉ ≤ 0 := Int.ceil_le.mpr (by simpa using hx)
      have h2 : (0 : ℚ) ≤ n := le_trans (abs_nonneg x) h
      have : (0 : Int) ≤ n := by exact_mod_cast h2
      omega

theorem abs_sub_truncf_lt_one (x : ℚ) : |x - (truncf x : ℚ)| < 1 := by
  unfold truncf
  split_ifs with h0
  · have h1 := Int.floor_le x
    have h2 := Int.lt_floor_add_one x
    rw [abs_lt]; constructor <;> linarith
  · have h1 := Int.le_ceil x
    have h2 := Int.ceil_lt_add_one x
    rw [abs_lt]; constructor <;> linarith

/-- The longitude block in single precision runs through, and its field letter
is in 65..82, for a sum `180 + longitude` from zero to below the midpoint under
360. -/
theorem lonCharsF32_field (longitude : ℚ) (h0 : -180 ≤ longitude)
    (h1 : longitude < 180 - 1 / 65536) :
    ∃ g1 g3 g5 : Int, lonCharsF32 longitude = some (g1, g3, g5) ∧ 65 ≤ g1 ∧ g1 ≤ 82 := by
  obtain ⟨f, hf, hf0, hf1⟩ := roundF32_below 8 11796480 (180 + longitude) (by norm_num)
    (by norm_num) (by linarith) (by norm_num; linarith) (by norm_num; linarith)
    (by norm_num)
  norm_num at hf1
  obtain ⟨q, hq, hq0, hq1⟩ := roundF32_below 4 9437184 (f / 20) (by norm_num)
    (by norm_num) (by linarith) (by norm_num; linarith) (by norm_num; linarith)
    (by norm_num)
  norm_num at hq1
  have hi := @floor_range q 18 hq0 (by push_cast; linarith)
  have hm20 : |(((⌊q⌋ * 20 : Int)) : ℚ)| < 2 ^ ((8 : Int) + 1) := by
    have : |(⌊q⌋ * 20 : Int)| < 512 := by rw [abs_lt]; constructor <;> omega
    rw [← Int.cast_abs]; norm_num; exact_mod_cast this
  obtain ⟨m, hm, hm1⟩ := roundF32_abs_le 8 ((⌊q⌋ * 20 : Int) : ℚ) (by norm_num)
    (by norm_num) hm20
  norm_num at hm1
  have hfm : |f - m| < 2 ^ ((9 : Int) + 1) := by
    have := abs_le.mp hm1
    norm_num; rw [abs_lt]; constructor <;> linarith
  obtain ⟨f1, hf1', hf1b⟩ := roundF32_abs_le 9 (f - m) (by norm_num) (by norm_num) hfm
  norm_num at hf1b
  have hh : |f1 / 2| < 2 ^ ((9 : Int) + 1) := by
    have := abs_le.mp hf1b
    norm_num; rw [abs_lt]; constructor <;> linarith
  obtain ⟨h, hh', hhb⟩ := roundF32_abs_le 9 (f1 / 2) (by norm_num) (by norm_num) hh
  norm_num at hhb
  have hf2 := truncf_abs_le h 1024 (by push_cast; exact hhb)
  have hd : |h - (truncf h : ℚ)| < 2 ^ ((-1 : Int) + 1) := by
    norm_num; exact abs_sub_truncf_lt_one h
  obtain ⟨d, hd', hdb⟩ := roundF32_abs_le (-1) (h - (truncf h : ℚ)) (by norm_num)
    (by norm_num) hd
  norm_num at hdb
  have hc : |d * 24| < 2 ^ ((4 : Int) + 1) := by
    have := abs_le.mp hdb
    norm_num; rw [abs_lt]; constructor <;> linarith
  obtain ⟨c, hc', hcb⟩ := roundF32_abs_le 4 (d * 24) (by norm_num) (by norm_num) hc
  norm_num at hcb
  have ht := truncf_abs_le c 32 (by push_cast; exact hcb)
  refine ⟨toSChar (ASCII_UPPER + ⌊q⌋), toSChar (truncf h),
    toSChar (ASCII_LOWER + truncf c), ?_, ?_, ?_⟩
  · simp only [lonCharsF32, hf, hq, bind, pure, Option.some_bind, truncf_of_nonneg hq0]
    rw [checkInt_of_range (by omega) (by omega)]
    simp only [Option.some_bind]
    rw [checkInt_of_range (by unfold ASCII_UPPER; omega) (by unfold ASCII_UPPER; omega)]
    simp only [Option.some_bind]
    rw [checkInt_of_range (by omega) (by omega)]
    simp only [Option.some_bind, hm, hf1', hh']
    rw [checkInt_of_range (by omega) (by omega)]
    simp only [Option.some_bind, hd', hc']
    rw [checkInt_of_range (by omega) (by omega)]
    simp only [Option.some_bind]
    rw [checkInt_of_range (by unfold ASCII_LOWER; omega) (by unfold ASCII_LOWER; omega)]
    simp only [Option.some_bind]
  · unfold toSChar ASCII_UPPER; omega
  · unfold toSChar ASCII_UPPER; omega

/-- The latitude block in single precision runs through, and its field letter
is in 65..82, for a sum `90 + latitude` from zero to below the midpoint under
180. -/
theorem latCharsF32_field (latitude : ℚ) (h0 : -90 ≤ latitude)
    (h1 : latitude < 90 - 1 / 131072) :
    ∃ g2 g4 g6 : Int, latCharsF32 latitude = some (g2, g4, g6) ∧ 65 ≤ g2 ∧ g2 ≤ 82 := by
  obtain ⟨f, hf, hf0, hf1⟩ := roundF32_below 7 11796480 (90 + latitude) (by norm_num)
    (by norm_num) (by linarith) (by norm_num; linarith) (by norm_num; linarith)
    (by norm_num)
  norm_num at hf1
  obtain ⟨q, hq, hq0, hq1⟩ := roundF32_below 4 9437184 (f / 10) (by norm_num)
    (by norm_num) (by linarith) (by norm_num; linarith) (by norm_num; linarith)
    (by norm_num)
  norm_num at hq1
  have hi := @floor_range q 18 hq0 (by push_cast; linarith)
  have hm10 : |(((⌊q⌋ * 10 : Int)) : ℚ)| < 2 ^ ((8 : Int) + 1) := by
    have : |(⌊q⌋ * 10 : Int)| < 512 := by rw [abs_lt]; constructor <;> omega
    rw [← Int.cast_abs]; norm_num; exact_mod_cast this
  obtain ⟨m, hm, hm1⟩ := roundF32_abs_le 8 ((⌊q⌋ * 10 : Int) : ℚ) (by norm_num)
    (by norm_num) hm10
  norm_num at hm1
  have hfm : |f - m| < 2 ^ ((9 : Int) + 1) := by
    have := abs_le.mp hm1
    norm_num; rw [abs_lt]; constructor <;> linarith
  obtain ⟨f1, hf1', hf1b⟩ := roundF32_abs_le 9 (f - m) (by norm_num) (by norm_num) hfm
  norm_num at hf1b
  have hf2 := truncf_abs_le f1 1024 (by push_cast; exact hf1b)
  have hd : |f1 - (truncf f1 : ℚ)| < 2 ^ ((-1 : Int) + 1) := by
    norm_num; exact abs_sub_truncf_lt_one f1
  obtain ⟨d, hd', hdb⟩ := roundF32_abs_le (-1) (f1 - (truncf f1 : ℚ)) (by norm_num)
    (by norm_num) hd
  norm_num at hdb
  have hc : |d * 24| < 2 ^ ((4 : Int) + 1) := by
    have := abs_le.mp hdb
    norm_num; rw [abs_lt]; constructor <;> linarith
  obtain ⟨c, hc', hcb⟩ := roundF32_abs_le 4 (d * 24) (by norm_num) (by norm_num) hc
  norm_num at hcb
  have ht := truncf_abs_le c 32 (by push_cast; exact hcb)
  refine ⟨toSChar (ASCII_UPPER + ⌊q⌋), toSChar (truncf f1),
    toSChar (ASCII_LOWER + truncf c), ?_, ?_, ?_⟩
  · simp only [latCharsF32, hf, hq, bind, pure, Option.some_bind, truncf_of_nonneg hq0]
    rw [checkInt_of_range (by omega) (by omega)]
    simp only [Option.some_bind]
    rw [checkInt_of_range (by unfold ASCII_UPPER; omega) (by unfold ASCII_UPPER; omega)]
    simp only [Option.some_bind]
    rw [checkInt_of_range (by omega) (by omega)]
    simp only [Option.some_bind, hm, hf1']
    rw [checkInt_of_range (by omega) (by omega)]
    simp only [Option.some_bind, hd', hc']
    rw [checkInt_of_range (by omega) (by omega)]
    simp only [Option.some_bind]
    rw [checkInt_of_range (by unfold ASCII_LOWER; omega) (by unfold ASCII_LOWER; omega)]
    simp only [Option.some_bind]
  · unfold toSChar ASCII_UPPER; omega
  · unfold toSChar ASCII_UPPER; omega

/-- C4, as stated, fails on the code, which computes in single precision.  The
longitude 180 - 2^-16 = 11796479/65536 (the argument "179.9999847412109375")
is a `float` in [-180, 180); the sum 180 + longitude is a tie that rounds to
360, the field index is 18, `g1` is 83 and the line printed is SJ00aa, whose
first character 'S' is above 'R'.  Likewise the latitude 90 - 2^-17 =
11796479/131072 prints JS00aa. -/
theorem C4_counterexample :
    atof "179.9999847412109375" = some (11796479 / 65536) ∧
    roundF32 (11796479 / 65536) = some (11796479 / 65536) ∧
    ((-180 : ℚ) ≤ 11796479 / 65536 ∧ (11796479 / 65536 : ℚ) < 180) ∧
    lonCharsF32 (11796479 / 65536) = some (83, 0, 97) ∧
    encodeF32 (11796479 / 65536) 0 = some "SJ00aa\n" ∧
    roundF32 (11796479 / 131072) = some (11796479 / 131072) ∧
    ((-90 : ℚ) ≤ 11796479 / 131072 ∧ (11796479 / 131072 : ℚ) < 90) ∧
    latCharsF32 (11796479 / 131072) = some (83, 0, 97) ∧
    encodeF32 0 (11796479 / 131072) = some "JS00aa\n" ∧
    ¬ ('S' ≤ 'R') := by
  decide!

/-- C4, amended.  In exact arithmetic, for every longitude in [-180, 180) and
latitude in [-90, 90), the variables `g1` and `g2` hold codes in 65..82 and the
first and second characters of the output lie in 'A'..'R'.  In the single
precision of the code the same holds for every longitude in
[-180, 180 - 2^-16) and latitude in [-90, 90 - 2^-17), that is for all `float`
coordinates of the half-open ranges but the largest `float` below 180 and the
largest `float` below 90. -/
theorem C4_field_chars_in_A_R :
    (∀ longitude latitude : ℚ, -180 ≤ longitude ∧ longitude < 180 →
      -90 ≤ latitude ∧ latitude < 90 →
      ∃ (g1 g3 g5 g2 g4 g6 : Int) (c1 c2 : Char) (rest : List Char),
        lonChars longitude = some (g1, g3, g5) ∧ latChars latitude = some (g2, g4, g6) ∧
        (65 ≤ g1 ∧ g1 ≤ 82) ∧ (65 ≤ g2 ∧ g2 ≤ 82) ∧
        encode longitude latitude = some (String.mk (c1 :: c2 :: rest)) ∧
        ('A' ≤ c1 ∧ c1 ≤ 'R') ∧ ('A' ≤ c2 ∧ c2 ≤ 'R')) ∧
    (∀ longitude latitude : ℚ, -180 ≤ longitude ∧ longitude < 180 - 1 / 65536 →
      -90 ≤ latitude ∧ latitude < 90 - 1 / 131072 →
      ∃ (g1 g3 g5 g2 g4 g6 : Int) (c1 c2 : Char) (rest : List Char),
        lonCharsF32 longitude = some (g1, g3, g5) ∧
        latCharsF32 latitude = some (g2, g4, g6) ∧
        (65 ≤ g1 ∧ g1 ≤ 82) ∧ (65 ≤ g2 ∧ g2 ≤ 82) ∧
        encodeF32 longitude latitude = some (String.mk (c1 :: c2 :: rest)) ∧
        ('A' ≤ c1 ∧ c1 ≤ 'R') ∧ ('A' ≤ c2 ∧ c2 ≤ 'R')) := by
  have hA : ∀ g : Int, 65 ≤ g → g ≤ 82 →
      'A' ≤ Char.ofNat (g % 256).toNat ∧ Char.ofNat (g % 256).toNat ≤ 'R' := by
    intro g h0 h1
    interval_cases g <;> decide
  constructor
  · intro longitude latitude hlon hlat
    have a1 := Spec.fieldLonIndex_nonneg hlon.1
    have a2 : Spec.fieldLonIndex longitude < 18 :=
      Spec.fieldLonIndex_lt (by push_cast; linarith)
    have b1 := Spec.fieldLatIndex_nonneg hlat.1
    have b2 : Spec.fieldLatIndex latitude < 18 :=
      Spec.fieldLatIndex_lt (by push_cast; linarith)
    have hB : ∀ i : Int, 0 ≤ i → i < 18 →
        (65 ≤ toSChar (ASCII_UPPER + i) ∧ toSChar (ASCII_UPPER + i) ≤ 82) ∧
        ('A' ≤ Spec.letter 'A' i ∧ Spec.letter 'A' i ≤ 'R') := by
      intro i h0 h1
      interval_cases i <;> decide
    exact ⟨_, _, _, _, _, _, _, _, _,
      lonChars_eq longitude hlon.1 (by linarith), latChars_eq latitude hlat.1 (by linarith),
      (hB _ a1 a2).1, (hB _ b1 b2).1,
      encode_valid longitude latitude hlon.1 hlon.2.le hlat.1 hlat.2.le,
      (hB _ a1 a2).2, (hB _ b1 b2).2⟩
  · intro longitude latitude hlon hlat
    obtain ⟨g1, g3, g5, e1, l1, u1⟩ := lonCharsF32_field longitude hlon.1 hlon.2
    obtain ⟨g2, g4, g6, e2, l2, u2⟩ := latCharsF32_field latitude hlat.1 hlat.2
    refine ⟨g1, g3, g5, g2, g4, g6, Char.ofNat (g1 % 256).toNat,
      Char.ofNat (g2 % 256).toNat, fmtD g3 ++ fmtD g4 ++ fmtC g5 ++ fmtC g6 ++ ['\n'],
      e1, e2, ⟨l1, u1⟩, ⟨l2, u2⟩, ?_, hA g1 l1 u1, hA g2 l2 u2⟩
    simp only [encodeF32, e1, e2, bind, pure, Option.some_bind, printLocator, fmtC,
      List.cons_append, List.nil_append, List.append_assoc]

/-- Witness for the amended C4: in exact arithmetic at longitude 179.99,
latitude -90; in single precision at the second largest `float` below 180 and
below 90. -/
theorem C4_field_chars_in_A_R_witness :
    (∃ (g1 g3 g5 g2 g4 g6 : Int) (c1 c2 : Char) (rest : List Char),
        lonChars (17999 / 100) = some (g1, g3, g5) ∧ latChars (-90) = some (g2, g4, g6) ∧
        (65 ≤ g1 ∧ g1 ≤ 82) ∧ (65 ≤ g2 ∧ g2 ≤ 82) ∧
        encode (17999 / 100) (-90) = some (String.mk (c1 :: c2 :: rest)) ∧
        ('A' ≤ c1 ∧ c1 ≤ 'R') ∧ ('A' ≤ c2 ∧ c2 ≤ 'R')) ∧
    (∃ (g1 g3 g5 g2 g4 g6 : Int) (c1 c2 : Char) (rest : List Char),
        lonCharsF32 (5898239 / 32768) = some (g1, g3, g5) ∧
        latCharsF32 (5898239 / 65536) = some (g2, g4, g6) ∧
        (65 ≤ g1 ∧ g1 ≤ 82) ∧ (65 ≤ g2 ∧ g2 ≤ 82) ∧
        encodeF32 (5898239 / 32768) (5898239 / 65536)
          = some (String.mk (c1 :: c2 :: rest)) ∧
        ('A' ≤ c1 ∧ c1 ≤ 'R') ∧ ('A' ≤ c2 ∧ c2 ≤ 'R')) :=
  ⟨C4_field_chars_in_A_R.1 (17999 / 100) (-90) (by norm_num) (by norm_num),
   C4_field_chars_in_A_R.2 (5898239 / 32768) (5898239 / 65536) (by norm_num)
     (by norm_num)⟩

/-- C14, as stated, fails at the largest single-precision value below each
upper end.  The longitude 180 - 2^-16 = 11796479/65536 is a `float` in
[-180, 180); the sum 180 + longitude = 360 - 2^-16 lies midway between the
neighbouring `float` values 360 - 2^-15 and 360 and rounds to the even one,
360, so that the field index is 18 and `g1` is 83, the letter 'S'.  Likewise
the latitude 90 - 2^-17 = 11796479/131072 gives the sum 180 and the letter
'S'. -/
theorem C14_counterexample :
    roundF32 (11796479 / 65536) = some (11796479 / 65536) ∧
    ((-180 : ℚ) ≤ 11796479 / 65536 ∧ (11796479 / 65536 : ℚ) < 180) ∧
    roundF32 (180 + 11796479 / 65536) = some 360 ∧
    lonFieldF32 (11796479 / 65536) = some 83 ∧
    roundF32 (11796479 / 131072) = some (11796479 / 131072) ∧
    ((-90 : ℚ) ≤ 11796479 / 131072 ∧ (11796479 / 131072 : ℚ) < 90) ∧
    roundF32 (90 + 11796479 / 131072) = some 180 ∧
    latFieldF32 (11796479 / 131072) = some 83 ∧
    fmtC 83 = ['S'] := by
  decide!

/-- C14, amended: with the arithmetic carried out in IEEE-754 single precision
(the sums `180 + longitude`, `90 + latitude` and the quotients by 20 and 10
rounded to `float`, then `truncf`), for every longitude in
[-180, 180 - 2^-16) and latitude in [-90, 90 - 2^-17), that is for every
single-precision longitude in [-180, 180) and latitude in [-90, 90) other than
the largest `float` below 180 and the largest `float` below 90, the rounded
sums stay below 360 and 180 and the two field characters are within
'A'..'R'. -/
theorem C14_single_precision_field_chars (longitude latitude : ℚ)
    (hlon : -180 ≤ longitude ∧ longitude < 180 - 1 / 65536)
    (hlat : -90 ≤ latitude ∧ latitude < 90 - 1 / 131072) :
    ∃ (f_lon f_lat : ℚ) (g1 g2 : Int) (c1 c2 : Char),
      roundF32 (180 + longitude) = some f_lon ∧ f_lon < 360 ∧
      roundF32 (90 + latitude) = some f_lat ∧ f_lat < 180 ∧
      lonFieldF32 longitude = some g1 ∧ latFieldF32 latitude = some g2 ∧
      fmtC g1 = [c1] ∧ fmtC g2 = [c2] ∧
      ('A' ≤ c1 ∧ c1 ≤ 'R') ∧ ('A' ≤ c2 ∧ c2 ≤ 'R') := by
  obtain ⟨f, g1, hf, hf1, hg, hg0, hg1⟩ := lonFieldF32_range longitude hlon.1 hlon.2
  obtain ⟨f', g2, hf', hf1', hg', hg0', hg1'⟩ := latFieldF32_range latitude hlat.1 hlat.2
  have hA : ∀ g : Int, 65 ≤ g → g ≤ 82 →
      'A' ≤ Char.ofNat (g % 256).toNat ∧ Char.ofNat (g % 256).toNat ≤ 'R' := by
    intro g h0 h1
    interval_cases g <;> decide
  exact ⟨f, f', g1, g2, _, _, hf, hf1, hf', hf1', hg, hg', rfl, rfl, hA g1 hg0 hg1,
    hA g2 hg0' hg1'⟩

/-- Witness for the amended C14: the second largest `float` below 180,
180 - 2^-15, and the second largest below 90, 90 - 2^-16. -/
theorem C14_single_precision_field_chars_witness :
    ∃ (f_lon f_lat : ℚ) (g1 g2 : Int) (c1 c2 : Char),
      roundF32 (180 + 5898239 / 32768) = some f_lon ∧ f_lon < 360 ∧
      roundF32 (90 + 5898239 / 65536) = some f_lat ∧ f_lat < 180 ∧
      lonFieldF32 (5898239 / 32768) = some g1 ∧ latFieldF32 (5898239 / 65536) = some g2 ∧
      fmtC g1 = [c1] ∧ fmtC g2 = [c2] ∧
      ('A' ≤ c1 ∧ c1 ≤ 'R') ∧ ('A' ≤ c2 ∧ c2 ≤ 'R') :=
  C14_single_precision_field_chars (5898239 / 32768) (5898239 / 65536)
    (by norm_num) (by norm_num)

/-- C15, as stated, fails without an upper bound: for longitude 1e10 the
product `i * 20`, and for latitude 1e10 the product `i * 10`, leaves the range
of `int`, so that no remainder, no character and no output is determined. -/
theorem C15_counterexample :
    (-180 : ℚ) ≤ 10000000000 ∧ (-90 : ℚ) ≤ 10000000000 ∧
    truncf ((180 + 10000000000) / 20) = 500000009 ∧
    checkInt (500000009 * 20) = none ∧
    lonVars 10000000000 = none ∧ lonChars 10000000000 = none ∧
    truncf ((90 + 10000000000) / 10) = 1000000009 ∧
    checkInt (1000000009 * 10) = none ∧
    latVars 10000000000 = none ∧ latChars 10000000000 = none ∧
    encode 10000000000 0 = none ∧ encode 0 10000000000 = none := by
  decide!

/-- C15, amended: for every longitude and latitude with `-180 ≤ longitude`,
`180 + longitude < 2147483660`, `-90 ≤ latitude` and `90 + latitude <
2147483650` (above the data model, as long as the products `i * 20` and
`i * 10` fit an `int`), the remainders satisfy `0 ≤ f1 < 20` (longitude) and
`0 ≤ f1 < 10` (latitude), the square values `g3`, `g4` are in 0..9, the
subsquare characters `g5`, `g6` are in 'a'..'x', and the printed locator has
exactly six characters before the newline. -/
theorem C15_only_field_leaves_alphabet (longitude latitude : ℚ)
    (hlon : -180 ≤ longitude ∧ 180 + longitude < 2147483660)
    (hlat : -90 ≤ latitude ∧ 90 + latitude < 2147483650) :
    ∃ (v w : BlockVars) (g1 g3 g5 g2 g4 g6 : Int) (c1 c2 c3 c4 c5 c6 : Char),
      lonVars longitude = some v ∧ latVars latitude = some w ∧
      (0 ≤ v.f1 ∧ v.f1 < 20) ∧ (0 ≤ w.f1 ∧ w.f1 < 10) ∧
      lonChars longitude = some (g1, g3, g5) ∧ latChars latitude = some (g2, g4, g6) ∧
      (0 ≤ g3 ∧ g3 ≤ 9) ∧ (0 ≤ g4 ∧ g4 ≤ 9) ∧
      encode longitude latitude = some (String.mk [c1, c2, c3, c4, c5, c6, '\n']) ∧
      fmtC g5 = [c5] ∧ fmtC g6 = [c6] ∧
      ('a' ≤ c5 ∧ c5 ≤ 'x') ∧ ('a' ≤ c6 ∧ c6 ≤ 'x') := by
  have c := Spec.squareLon_range longitude
  have d := Spec.squareLat_range latitude
  have e := Spec.subLon_range longitude
  have f := Spec.subLat_range latitude
  have hD : ∀ i : Int, 0 ≤ i → i ≤ 9 → 0 ≤ toSChar i ∧ toSChar i ≤ 9 := by
    intro i h0 h1
    interval_cases i <;> decide
  have hL : ∀ i : Int, 0 ≤ i → i ≤ 23 →
      'a' ≤ Spec.letter 'a' i ∧ Spec.letter 'a' i ≤ 'x' := by
    intro i h0 h1
    interval_cases i <;> decide
  have he := encode_eq longitude latitude hlon.1 (by linarith) hlat.1 (by linarith)
  simp only [printLocator, fmtD_digit _ c.1 c.2, fmtD_digit _ d.1 d.2,
    fmtC_lower _ e.1 e.2, fmtC_lower _ f.1 f.2] at he
  simp only [fmtC, List.cons_append, List.nil_append] at he
  exact ⟨_, _, _, _, _, _, _, _, _, _, _, _, _, _,
    lonVars_eq longitude hlon.1 hlon.2, latVars_eq latitude hlat.1 hlat.2,
    Spec.remLon_range longitude, Spec.remLat_range latitude,
    lonChars_eq longitude hlon.1 (by linarith), latChars_eq latitude hlat.1 (by linarith),
    hD _ c.1 c.2, hD _ d.1 d.2, he, fmtC_lower _ e.1 e.2, fmtC_lower _ f.1 f.2,
    hL _ e.1 e.2, hL _ f.1 f.2⟩

/-- Witness for the amended C15: longitude 200 and latitude 95, where both
field letters are outside 'A'..'R'. -/
theorem C15_only_field_leaves_alphabet_witness :
    ∃ (v w : BlockVars) (g1 g3 g5 g2 g4 g6 : Int) (c1 c2 c3 c4 c5 c6 : Char),
      lonVars 200 = some v ∧ latVars 95 = some w ∧
      (0 ≤ v.f1 ∧ v.f1 < 20) ∧ (0 ≤ w.f1 ∧ w.f1 < 10) ∧
      lonChars 200 = some (g1, g3, g5) ∧ latChars 95 = some (g2, g4, g6) ∧
      (0 ≤ g3 ∧ g3 ≤ 9) ∧ (0 ≤ g4 ∧ g4 ≤ 9) ∧
      encode 200 95 = some (String.mk [c1, c2, c3, c4, c5, c6, '\n']) ∧
      fmtC g5 = [c5] ∧ fmtC g6 = [c6] ∧
      ('a' ≤ c5 ∧ c5 ≤ 'x') ∧ ('a' ≤ c6 ∧ c6 ≤ 'x') :=
  C15_only_field_leaves_alphabet 200 95 (by norm_num) (by norm_num)

end Grid
